import Mathlib

/-!
Shallow embedding of `src/rust/src/networking_queue/mod.rs` (the gRIP
networking queue). Durations and instants are modelled as natural numbers of
nanoseconds; `hyper::Uri` as a `String`; `hyper::StatusCode` as a `Nat`;
request/response bodies as `List Nat` (byte sequences); boxed callbacks as
opaque `Nat` identifiers, with callback invocation reified as an explicit
`CallbackInvocation` event so "callback invoked with outcome" is observable.
-/

namespace Grip

/-- `RequestType` (mod.rs lines 48-54). -/
inductive RequestType where
  | Get
  | Post
  | Put
  | Delete
deriving DecidableEq, Repr

/-- Modelled from the spec: `ErrorKind` lives in `crate::errors`, whose source
file is not part of the provided tree. Per the error taxonomy of the spec, the
kinds a callback can observe are exactly the transport error (`HTTPError`,
wrapping the transport failure, modelled as an opaque `Nat` payload),
`RequestCancelled` and `RequestTimeout`. -/
inductive ErrorKind where
  | HTTPError (payload : Nat)
  | RequestCancelled
  | RequestTimeout
deriving DecidableEq, Repr

/-- `RequestOptions` (mod.rs lines 59-66): a header multimap and an optional
timeout. Headers are name/value pairs; the timeout is in nanoseconds. -/
structure RequestOptions where
  headers : List (String × String) := []
  timeout : Option Nat := none
deriving DecidableEq, Repr

/-- `Request` (mod.rs lines 68-78). -/
structure Request where
  http_type : RequestType
  uri : String
  body : List Nat := []
  options : RequestOptions := {}
deriving DecidableEq, Repr

/-- `Response` (mod.rs lines 80-85). -/
structure Response where
  base_request : Request
  body : List Nat
  status_code : Nat
deriving DecidableEq, Repr

/-- `InputCommand` (mod.rs lines 91-98). The oneshot receiver half and the
boxed callback are modelled as opaque `Nat` identifiers. -/
inductive InputCommand where
  | Request (cancellation_signal : Nat) (request : Request) (callback : Nat)
  | Quit
deriving DecidableEq, Repr

/-- `OutputCommand` (mod.rs lines 100-109): a `Response` plus callback, or an
`Error` plus callback. The error-chain `Error` is modelled by its kind. -/
inductive OutputCommand where
  | Response (response : Response) (callback : Nat)
  | Error (error : ErrorKind) (callback : Nat)
deriving DecidableEq, Repr

/-- The internal per-request task `State` enum (mod.rs lines 166-171). -/
inductive State where
  | Successful (body : List Nat) (status_code : Nat)
  | Error (error : ErrorKind)
  | Canceled
  | Timeout
deriving DecidableEq, Repr

/-- The transport stage of the per-request future chain (mod.rs lines
176-195): a completed exchange `(status, body)` is mapped by `.map` to
`State::Successful(body, status)`; a transport failure `e` is mapped by
`.or_else` to `State::Error(ErrorKind::HTTPError(e))`. The transport result
is an `Except` with an opaque `Nat` error payload. -/
def transportToState : Except Nat (Nat × List Nat) → State
  | .ok (status_code, body) => State.Successful body status_code
  | .error e => State.Error (ErrorKind.HTTPError e)

/-- The cancellation arm of the race (mod.rs lines 196-199): the oneshot
receiver either yields a message (`Ok(())`, mapped by `.map` to `Canceled`)
or a disconnect (`Err(Canceled)`, mapped by `.or_else` to `Canceled`). -/
def cancellationToState : Except Unit Unit → State
  | .ok _ => State.Canceled
  | .error _ => State.Canceled

/-- `select2` over the transport future and the cancellation future
(mod.rs lines 196-203): the earlier-resolving side wins; when both are ready
on the same poll the left (transport) future is polled first, so it wins
ties. `ta`/`tb` are the resolution instants of the two sides. -/
def select2First (ta tb : Nat) (a b : State) : State :=
  if ta ≤ tb then a else b

/-- The effective timeout duration (mod.rs lines 205-206):
`request.options.timeout.unwrap_or_else(|| Duration::new(u16::MAX as u64, 0))`,
i.e. 65535 seconds = `65535 * 10^9` nanoseconds when no timeout is set. -/
def effectiveTimeout (opts : RequestOptions) : Nat :=
  match opts.timeout with
  | some d => d
  | none => 65535 * 1000000000

/-- The `.timeout(..).or_else(|_| ok(State::Timeout))` wrapper (mod.rs lines
204-208): if the inner race resolves by the deadline its value passes
through (the deadline combinator polls the inner future first), otherwise
the outcome becomes `State::Timeout`. -/
def applyTimeout (d : Nat) (resolveTime : Nat) (s : State) : State :=
  if resolveTime ≤ d then s else State.Timeout

/-- The complete per-request race (mod.rs lines 176-208): transport vs
cancellation under `select2`, wrapped by the timeout. `tRes`/`tTime` are the
transport outcome and its resolution instant, `cRes`/`cTime` likewise for
the cancellation signal; instants are measured from task start, as the
timeout is. -/
def taskState (opts : RequestOptions) (tRes : Except Nat (Nat × List Nat))
    (tTime : Nat) (cRes : Except Unit Unit) (cTime : Nat) : State :=
  applyTimeout (effectiveTimeout opts) (min tTime cTime)
    (select2First tTime cTime (transportToState tRes) (cancellationToState cRes))

/-- The outcome-dispatch match of the per-request task (mod.rs lines
210-242): maps the winning `State` to the single `OutputCommand` published
on the Result Channel, always carrying the original callback. -/
def dispatchState (request : Request) (callback : Nat) : State → OutputCommand
  | State.Successful vec status_code =>
      OutputCommand.Response (Response.mk request vec status_code) callback
  | State.Error error => OutputCommand.Error error callback
  | State.Canceled => OutputCommand.Error ErrorKind.RequestCancelled callback
  | State.Timeout => OutputCommand.Error ErrorKind.RequestTimeout callback

/-- The whole per-request task (spawn body, mod.rs lines 174-243): run the
race, then publish exactly one `OutputCommand`. -/
def processRequest (request : Request) (callback : Nat) (tRes : Except Nat (Nat × List Nat))
    (tTime : Nat) (cRes : Except Unit Unit) (cTime : Nat) : OutputCommand :=
  dispatchState request callback (taskState request.options tRes tTime cRes cTime)

/-- The `take_while` filter of the worker loop (mod.rs lines 151-160): the
command stream is consumed only while the command is not `Quit`; `Quit`
ends the stream and is itself not passed to `for_each`. Given the full
sequence of commands on the Command Channel, this returns the commands the
`for_each` body of the worker actually processes. -/
def processedCommands (cmds : List InputCommand) : List InputCommand :=
  cmds.takeWhile fun c =>
    match c with
    | InputCommand.Quit => false
    | _ => true

/-- Reified callback invocation: callback `callback` called with
`Ok(response)` or `Err(error)` (mod.rs lines 301-306). -/
inductive CallbackInvocation where
  | invoke (callback : Nat) (result : Except ErrorKind Response)
deriving Repr

/-- The match inside `try_recv_queue` (mod.rs lines 300-307): a popped
`OutputCommand::Response` invokes its callback with `Ok(response)`, a popped
`OutputCommand::Error` invokes its callback with `Err(error)`. -/
def invocationOf : OutputCommand → CallbackInvocation
  | OutputCommand.Response response callback =>
      CallbackInvocation.invoke callback (Except.ok response)
  | OutputCommand.Error error callback =>
      CallbackInvocation.invoke callback (Except.error error)

/-- The callback carried by an `OutputCommand` (mod.rs lines 100-109). -/
def outputCallback : OutputCommand → Nat
  | OutputCommand.Response _ callback => callback
  | OutputCommand.Error _ callback => callback

/-- The caller-side `Queue` struct (mod.rs lines 111-118). The worker
thread handle is `Option Unit`; the commands sent on the Command Channel and the
pending commands of the Result Channel are lists (front = oldest). -/
structure Queue where
  working_thread : Option Unit
  input_commands : List InputCommand
  response_receiver : List OutputCommand
  last_time_executed_with_limit : Option Nat
  number_of_pending_requests : Nat
deriving DecidableEq, Repr

namespace Queue

/-- The fresh queue returned by `Queue::new` (mod.rs lines 253-260): live
thread handle, empty channels, no rate-limit timestamp, pending count 0. -/
def new : Queue where
  working_thread := some ()
  input_commands := []
  response_receiver := []
  last_time_executed_with_limit := none
  number_of_pending_requests := 0

/-- `Queue::send_input_command` (mod.rs lines 288-297): increments the
pending count and (asynchronously, fire-and-forget) sends the command into
the Command Channel, modelled as appending it. Note the increment happens
for every command, `Quit` included. -/
def send_input_command (q : Queue) (input_command : InputCommand) : Queue :=
  { q with
    number_of_pending_requests := q.number_of_pending_requests + 1
    input_commands := q.input_commands ++ [input_command] }

/-- `Queue::send_request` (mod.rs lines 271-286): creates a cancellation
channel (the token is the opaque id `cancellation_id`) and forwards an
`InputCommand::Request` through `send_input_command`. -/
def send_request (q : Queue) (request : Request) (callback : Nat)
    (cancellation_id : Nat) : Queue :=
  send_input_command q (InputCommand.Request cancellation_id request callback)

/-- `Queue::stop` (mod.rs lines 263-269): sends `InputCommand::Quit`, then
takes and joins the worker thread handle if still present. -/
def stop (q : Queue) : Queue :=
  let q := send_input_command q InputCommand.Quit
  { q with working_thread := none }

/-- `Queue::try_recv_queue` (mod.rs lines 299-312): non-blocking pop from
the Result Channel. On `Err` from `try_recv` (channel empty — or
disconnected, which cannot occur while the queue holds a sender clone) the
`?` returns early: no callback runs and the pending count is untouched.
Otherwise the callback of the popped command is invoked with `Ok(response)` /
`Err(error)`, the pending count is decremented, and `Ok(())` is returned.
Result: (new queue, the invocation if any, whether the result was `Ok`). -/
def try_recv_queue (q : Queue) : Queue × Option CallbackInvocation × Bool :=
  match q.response_receiver with
  | [] => (q, none, false)
  | cmd :: rest =>
      ({ q with
          response_receiver := rest
          number_of_pending_requests := q.number_of_pending_requests - 1 },
        some (invocationOf cmd), true)

/-- The drain loop of `execute_queue_with_limit` (mod.rs lines 327-334):
`counter = 0; while counter <= limit { if try_recv_queue fails, break;
counter += 1 }` — i.e. up to `fuel = limit + 1` successful drains. Returns
the queue, the invocations emitted (in order), and the drain count. -/
def drainLoop (q : Queue) : Nat → Queue × List CallbackInvocation × Nat
  | 0 => (q, [], 0)
  | fuel + 1 =>
      match q.try_recv_queue with
      | (q', some inv, true) =>
          let r := drainLoop q' fuel
          (r.1, inv :: r.2.1, r.2.2 + 1)
      | _ => (q, [], 0)

/-- `Queue::execute_queue_with_limit` (mod.rs lines 314-335). Both calls to
`Instant::now()` in the source are modelled by the single instant `now`;
`duration_since` is truncated subtraction (time is monotone). If a previous
rate-limited call is recorded and `now - last ≤ delay_between_executions`,
returns 0 without touching anything; otherwise records `now` and runs the
drain loop with budget `limit + 1`. -/
def execute_queue_with_limit (q : Queue) (limit : Nat)
    (delay_between_executions : Nat) (now : Nat) :
    Queue × List CallbackInvocation × Nat :=
  match q.last_time_executed_with_limit with
  | some last_time =>
      if now - last_time ≤ delay_between_executions then (q, [], 0)
      else
        drainLoop { q with last_time_executed_with_limit := some now } (limit + 1)
  | none =>
      drainLoop { q with last_time_executed_with_limit := some now } (limit + 1)

end Queue

/-- An `ErrorKind` a callback is allowed to observe per the spec
taxonomy: a transport error, `RequestCancelled`, or `RequestTimeout`. -/
def allowedErrorKind : ErrorKind → Prop
  | ErrorKind.HTTPError _ => True
  | ErrorKind.RequestCancelled => True
  | ErrorKind.RequestTimeout => True

instance (e : ErrorKind) : Decidable (allowedErrorKind e) := by
  cases e <;> simp [allowedErrorKind] <;> infer_instance

/-- A concrete GET request, used as a witness fixture. -/
def reqG : Request where
  http_type := RequestType.Get
  uri := "docs.rs"

/-- A queue holding exactly the outcome of one concrete request, used as a
witness fixture. -/
def qOne : Queue :=
  { Queue.new with
    response_receiver :=
      [processRequest reqG 7 (Except.ok (200, [1, 2])) 5 (Except.error ()) 9]
    number_of_pending_requests := 1 }

/-- A queue holding one undrained error outcome with a recorded rate-limit
timestamp of 0, used as a fixture. -/
def qB : Queue :=
  { Queue.new with
    response_receiver := [OutputCommand.Error ErrorKind.RequestCancelled 5]
    last_time_executed_with_limit := some 0
    number_of_pending_requests := 1 }

/-! Helper lemmas shared by the claim theorems. -/

/-- Closed form of the drain loop: with budget `fuel` it drains
`min fuel (length of the Result Channel)` outcomes in order, emitting their
invocations, and touches no other field of the queue. -/
lemma drainLoop_eq (fuel : Nat) (q : Queue) :
    Queue.drainLoop q fuel =
      ({ q with
          response_receiver :=
            q.response_receiver.drop (min fuel q.response_receiver.length)
          number_of_pending_requests :=
            q.number_of_pending_requests - min fuel q.response_receiver.length },
        (q.response_receiver.take (min fuel q.response_receiver.length)).map invocationOf,
        min fuel q.response_receiver.length) := by
  induction fuel generalizing q with
  | zero => simp [Queue.drainLoop]
  | succ n ih =>
    match hr : q.response_receiver with
    | [] =>
      obtain ⟨wt, ic, rr, lt, np⟩ := q
      simp only at hr
      subst hr
      simp [Queue.drainLoop, Queue.try_recv_queue]
    | cmd :: rest =>
      simp only [Queue.drainLoop, Queue.try_recv_queue, hr, ih, Nat.succ_min_succ,
        List.length_cons, List.drop_succ_cons, List.take_succ_cons, List.map_cons,
        Nat.sub_sub, Nat.add_comm 1]

/-- When the inner race resolves within the deadline, the timeout wrapper is
transparent. -/
lemma taskState_of_le (opts : RequestOptions) (tRes : Except Nat (Nat × List Nat))
    (tTime : Nat) (cRes : Except Unit Unit) (cTime : Nat)
    (h : min tTime cTime ≤ effectiveTimeout opts) :
    taskState opts tRes tTime cRes cTime =
      select2First tTime cTime (transportToState tRes) (cancellationToState cRes) := by
  simp [taskState, applyTimeout, h]

/-- The per-request race resolves to one of exactly four shapes: a success,
a transport error (`HTTPError`), a cancellation, or a timeout. -/
lemma taskState_shape (opts : RequestOptions) (tRes : Except Nat (Nat × List Nat))
    (tTime : Nat) (cRes : Except Unit Unit) (cTime : Nat) :
    (∃ body status, taskState opts tRes tTime cRes cTime = State.Successful body status) ∨
    (∃ p, taskState opts tRes tTime cRes cTime = State.Error (ErrorKind.HTTPError p)) ∨
    taskState opts tRes tTime cRes cTime = State.Canceled ∨
    taskState opts tRes tTime cRes cTime = State.Timeout := by
  by_cases hT : min tTime cTime ≤ effectiveTimeout opts
  · rw [taskState_of_le opts tRes tTime cRes cTime hT]
    unfold select2First
    by_cases hS : tTime ≤ cTime
    · simp only [if_pos hS]
      cases tRes with
      | ok v =>
        obtain ⟨status, body⟩ := v
        exact Or.inl ⟨body, status, rfl⟩
      | error e => exact Or.inr (Or.inl ⟨e, rfl⟩)
    · simp only [if_neg hS]
      cases cRes with
      | ok u => exact Or.inr (Or.inr (Or.inl rfl))
      | error u => exact Or.inr (Or.inr (Or.inl rfl))
  · exact Or.inr (Or.inr (Or.inr (by simp [taskState, applyTimeout, hT])))

/-! The claim theorems. -/

/-- Claim C3: the per-request task maps its winning race outcome to exactly
one `OutputCommand` by the exact correspondence of the `State` match —
`Successful(body, status)` to a `Response` built from the original request,
body and status code; `Error(e)` to an `Error` with the transport error;
`Canceled` to an `Error` with kind `RequestCancelled`; `Timeout` to an
`Error` with kind `RequestTimeout` — and in every case the published command
carries the original callback. -/
theorem dispatch_correspondence :
    (∀ request cb body status, dispatchState request cb (State.Successful body status) =
        OutputCommand.Response (Response.mk request body status) cb) ∧
    (∀ request cb e, dispatchState request cb (State.Error e) =
        OutputCommand.Error e cb) ∧
    (∀ request cb, dispatchState request cb State.Canceled =
        OutputCommand.Error ErrorKind.RequestCancelled cb) ∧
    (∀ request cb, dispatchState request cb State.Timeout =
        OutputCommand.Error ErrorKind.RequestTimeout cb) ∧
    (∀ request cb s, outputCallback (dispatchState request cb s) = cb) := by
  refine ⟨fun _ _ _ _ => rfl, fun _ _ _ => rfl, fun _ _ => rfl, fun _ _ => rfl,
    fun request cb s => ?_⟩
  cases s <;> rfl

/-- Claim C4: both resolutions of the cancellation one-shot channel — an
explicit message (`Ok`) and a disconnect (`Err`) — produce the same task
outcome `Canceled`, and the whole per-request race cannot distinguish the
two cases. -/
theorem cancellation_fire_drop_identical :
    (∀ r : Except Unit Unit, cancellationToState r = State.Canceled) ∧
    cancellationToState (Except.ok ()) = cancellationToState (Except.error ()) ∧
    (∀ opts tRes tTime cTime,
      taskState opts tRes tTime (Except.ok ()) cTime =
        taskState opts tRes tTime (Except.error ()) cTime) := by
  refine ⟨fun r => ?_, rfl, fun opts tRes tTime cTime => ?_⟩
  · cases r <;> rfl
  · simp [taskState, select2First, cancellationToState]

/-- Claim C2 (code bug): `stop()` does change the pending count.
`Queue::stop` forwards `InputCommand::Quit` through `send_input_command`,
which increments `number_of_pending_requests` for every command, `Quit`
included — so on a fresh queue with zero submissions and zero drains,
`pending_count` is 1 after `stop()`, where the claim requires 0. -/
theorem stop_increments_pending_count :
    Queue.new.number_of_pending_requests = 0 ∧
    (Queue.stop Queue.new).number_of_pending_requests = 1 ∧
    (Queue.stop Queue.new).input_commands = [InputCommand.Quit] := by
  refine ⟨rfl, rfl, rfl⟩

/-- Claim C9 (code bug): a second `stop()` is not a no-op on observable
state. It joins no thread (the handle is already `none`) but still sends
another `Quit` through `send_input_command`, which increments
`number_of_pending_requests` again: after `stop(); stop()` on a fresh queue
the pending count is 2 and a second `Quit` sits in the Command Channel,
so the state after the second call differs from the state after the
first. -/
theorem second_stop_changes_state :
    (Queue.stop (Queue.stop Queue.new)).number_of_pending_requests = 2 ∧
    (Queue.stop (Queue.stop Queue.new)).input_commands =
      [InputCommand.Quit, InputCommand.Quit] ∧
    (Queue.stop (Queue.stop Queue.new)).working_thread = none ∧
    Queue.stop (Queue.stop Queue.new) ≠ Queue.stop Queue.new := by
  refine ⟨rfl, rfl, rfl, ?_⟩
  intro h
  have := congrArg Queue.number_of_pending_requests h
  simp [Queue.stop, Queue.send_input_command, Queue.new] at this

/-- Claim C6: `try_recv_queue` with an available `OutputCommand` invokes the
callback of that command with `Ok(response)` for a `Response` command or
`Err(error)` for an `Error` command, decrements the pending count by exactly
one, and reports success; with an empty (or disconnected, which `try_recv`
reports the same way) channel it reports failure without invoking any
callback and without changing the queue. -/
theorem try_recv_queue_spec (q : Queue) :
    (q.response_receiver = [] → q.try_recv_queue = (q, none, false)) ∧
    (∀ cmd rest, q.response_receiver = cmd :: rest →
      q.try_recv_queue =
        ({ q with
            response_receiver := rest
            number_of_pending_requests := q.number_of_pending_requests - 1 },
          some (invocationOf cmd), true) ∧
      (0 < q.number_of_pending_requests →
        q.try_recv_queue.1.number_of_pending_requests + 1 =
          q.number_of_pending_requests)) ∧
    (∀ response cb, invocationOf (OutputCommand.Response response cb) =
        CallbackInvocation.invoke cb (Except.ok response)) ∧
    (∀ error cb, invocationOf (OutputCommand.Error error cb) =
        CallbackInvocation.invoke cb (Except.error error)) := by
  refine ⟨fun h => ?_, fun cmd rest h => ?_, fun _ _ => rfl, fun _ _ => rfl⟩
  · simp [Queue.try_recv_queue, h]
  · have he : q.try_recv_queue =
        ({ q with
            response_receiver := rest
            number_of_pending_requests := q.number_of_pending_requests - 1 },
          some (invocationOf cmd), true) := by
      simp [Queue.try_recv_queue, h]
    refine ⟨he, fun hp => ?_⟩
    rw [he]
    exact Nat.succ_pred_eq_of_pos hp

/-- Witness for claim C6 at the concrete queue `qB`: one error outcome is
available, so the drain succeeds, emits its invocation, and brings the
pending count from 1 to 0. -/
theorem try_recv_queue_spec_witness :
    qB.response_receiver = [OutputCommand.Error ErrorKind.RequestCancelled 5] ∧
    qB.try_recv_queue =
      ({ qB with
          response_receiver := []
          number_of_pending_requests := 0 },
        some (invocationOf (OutputCommand.Error ErrorKind.RequestCancelled 5)), true) :=
  ⟨rfl, ((try_recv_queue_spec qB).2.1
      (OutputCommand.Error ErrorKind.RequestCancelled 5) [] rfl).1⟩

/-- Claim C1: a request whose per-request task published its single
`OutputCommand` on the Result Channel leads to exactly one callback
invocation, carrying the original callback, with an outcome that is either a
`Response` or an `Error` whose kind is among the three observable kinds
(transport `HTTPError`, `RequestCancelled`, `RequestTimeout`); the channel
holds nothing further for this request afterwards, so no request yields both
a `Response` and an `Error`. -/
theorem request_single_outcome (request : Request) (cb : Nat)
    (tRes : Except Nat (Nat × List Nat)) (tTime : Nat)
    (cRes : Except Unit Unit) (cTime : Nat) (q : Queue)
    (h : q.response_receiver = [processRequest request cb tRes tTime cRes cTime]) :
    q.try_recv_queue.2.2 = true ∧
    q.try_recv_queue.1.response_receiver = [] ∧
    ∃ res : Except ErrorKind Response,
      q.try_recv_queue.2.1 = some (CallbackInvocation.invoke cb res) ∧
      ∀ e, res = Except.error e → allowedErrorKind e := by
  have he := ((try_recv_queue_spec q).2.1 _ [] h).1
  rw [he]
  refine ⟨rfl, rfl, ?_⟩
  rcases taskState_shape request.options tRes tTime cRes cTime with
    ⟨body, status, hs⟩ | ⟨p, hs⟩ | hs | hs
  · exact ⟨Except.ok (Response.mk request body status),
      by simp [processRequest, hs, dispatchState, invocationOf],
      fun e he' => Except.noConfusion he'⟩
  · refine ⟨Except.error (ErrorKind.HTTPError p),
      by simp [processRequest, hs, dispatchState, invocationOf], fun e he' => ?_⟩
    simp at he'
    rw [← he']
    simp [allowedErrorKind]
  · refine ⟨Except.error ErrorKind.RequestCancelled,
      by simp [processRequest, hs, dispatchState, invocationOf], fun e he' => ?_⟩
    simp at he'
    rw [← he']
    simp [allowedErrorKind]
  · refine ⟨Except.error ErrorKind.RequestTimeout,
      by simp [processRequest, hs, dispatchState, invocationOf], fun e he' => ?_⟩
    simp at he'
    rw [← he']
    simp [allowedErrorKind]

/-- Witness for claim C1 at the concrete queue `qOne`, which holds the
outcome of the fixture request `reqG` with callback 7. -/
theorem request_single_outcome_witness :
    qOne.response_receiver =
      [processRequest reqG 7 (Except.ok (200, [1, 2])) 5 (Except.error ()) 9] ∧
    (qOne.try_recv_queue.2.2 = true ∧
      qOne.try_recv_queue.1.response_receiver = [] ∧
      ∃ res : Except ErrorKind Response,
        qOne.try_recv_queue.2.1 = some (CallbackInvocation.invoke 7 res) ∧
        ∀ e, res = Except.error e → allowedErrorKind e) :=
  ⟨rfl, request_single_outcome reqG 7 (Except.ok (200, [1, 2])) 5
      (Except.error ()) 9 qOne rfl⟩

/-- Claim C7: when the request options carry no timeout, the race uses the
sentinel duration `Duration::new(u16::MAX, 0)` = 65535 seconds, and as long
as the race resolves within that bound (any realistic transport latency),
the outcome is never `Timeout`. Durations are in nanoseconds. -/
theorem default_timeout_sentinel (opts : RequestOptions)
    (tRes : Except Nat (Nat × List Nat)) (tTime : Nat)
    (cRes : Except Unit Unit) (cTime : Nat)
    (hnone : opts.timeout = none)
    (hlat : min tTime cTime ≤ 65535 * 1000000000) :
    effectiveTimeout opts = 65535 * 1000000000 ∧
    taskState opts tRes tTime cRes cTime ≠ State.Timeout := by
  have heff : effectiveTimeout opts = 65535 * 1000000000 := by
    simp [effectiveTimeout, hnone]
  refine ⟨heff, ?_⟩
  rw [taskState_of_le opts tRes tTime cRes cTime (heff ▸ hlat)]
  unfold select2First
  split
  · cases tRes with
    | ok v =>
      obtain ⟨status, body⟩ := v
      simp [transportToState]
    | error e => simp [transportToState]
  · cases cRes <;> simp [cancellationToState]

/-- Witness for claim C7: the default options have no timeout, and with a
transport that succeeds 3 seconds in (cancellation never resolving before
9 seconds), the outcome is not `Timeout`. -/
theorem default_timeout_sentinel_witness :
    (({} : RequestOptions).timeout = none ∧
      min 3000000000 9000000000 ≤ 65535 * 1000000000) ∧
    (effectiveTimeout {} = 65535 * 1000000000 ∧
      taskState {} (Except.ok (200, [1, 2])) 3000000000 (Except.error ()) 9000000000 ≠
        State.Timeout) :=
  ⟨⟨rfl, by decide⟩,
    default_timeout_sentinel {} (Except.ok (200, [1, 2])) 3000000000
      (Except.error ()) 9000000000 rfl (by decide)⟩

/-- A non-`Quit` command passes the `take_while` filter. -/
lemma processedCommands_cons_request (c : Nat) (r : Request) (cb : Nat)
    (l : List InputCommand) :
    processedCommands (InputCommand.Request c r cb :: l) =
      InputCommand.Request c r cb :: processedCommands l := by
  simp [processedCommands, List.takeWhile]

/-- `Quit` ends the stream: nothing from it on is processed. -/
lemma processedCommands_cons_quit (l : List InputCommand) :
    processedCommands (InputCommand.Quit :: l) = [] := by
  simp [processedCommands, List.takeWhile]

/-- Claim C8: the worker processes the whole command stream as long as no
`Quit` arrives (no Running-to-Draining transition without `Quit`); once a
`Quit` arrives, exactly the commands strictly before it are processed and no
subsequent command — `Request` or `Quit` — is ever processed; in particular
the worker body never sees `Quit` itself. -/
theorem worker_quit_spec :
    (∀ cmds : List InputCommand, InputCommand.Quit ∉ cmds →
      processedCommands cmds = cmds) ∧
    (∀ pre post : List InputCommand, InputCommand.Quit ∉ pre →
      processedCommands (pre ++ InputCommand.Quit :: post) = pre) ∧
    (∀ cmds : List InputCommand, InputCommand.Quit ∉ processedCommands cmds) := by
  refine ⟨fun cmds h => ?_, fun pre post h => ?_, fun cmds => ?_⟩
  · induction cmds with
    | nil => rfl
    | cons a l ih =>
      cases a with
      | Quit => exact absurd (List.mem_cons_self _ _) h
      | Request c r cb =>
        rw [processedCommands_cons_request]
        rw [ih fun hm => h (List.mem_cons_of_mem _ hm)]
  · induction pre with
    | nil => exact processedCommands_cons_quit post
    | cons a l ih =>
      cases a with
      | Quit => exact absurd (List.mem_cons_self _ _) h
      | Request c r cb =>
        rw [List.cons_append, processedCommands_cons_request]
        rw [ih fun hm => h (List.mem_cons_of_mem _ hm)]
  · induction cmds with
    | nil => simp [processedCommands]
    | cons a l ih =>
      cases a with
      | Quit => rw [processedCommands_cons_quit]; exact List.not_mem_nil _
      | Request c r cb =>
        rw [processedCommands_cons_request]
        intro hm
        rcases List.mem_cons.mp hm with h1 | h2
        · exact InputCommand.noConfusion h1
        · exact ih h2

/-- Witness for claim C8: with one request before `Quit` and one after,
exactly the one before is processed. -/
theorem worker_quit_spec_witness :
    InputCommand.Quit ∉ [InputCommand.Request 1 reqG 7] ∧
    processedCommands
        ([InputCommand.Request 1 reqG 7] ++
          InputCommand.Quit :: [InputCommand.Request 2 reqG 8]) =
      [InputCommand.Request 1 reqG 7] :=
  ⟨by simp, worker_quit_spec.2.1 [InputCommand.Request 1 reqG 7]
      [InputCommand.Request 2 reqG 8] (by simp)⟩

/-- Counterexample to claim C5 as stated: the claim throttles only when
strictly less than `min_interval` has elapsed, but the source compares with
`<=`. At `now = 5` with recorded timestamp 0 and `min_interval = 5`,
exactly `min_interval` has elapsed — not less — so the claim requires a
batch (one outcome is available, hence count 1 and a new timestamp), yet
the code drains nothing, keeps the old timestamp, and returns 0. -/
theorem execute_queue_with_limit_boundary :
    (5 : Nat) - 0 = 5 ∧ ¬((5 : Nat) - 0 < 5) ∧
    qB.response_receiver.length = 1 ∧
    Queue.execute_queue_with_limit qB 0 5 5 = (qB, [], 0) ∧
    (Queue.execute_queue_with_limit qB 0 5 5).2.2 ≠ 1 ∧
    (Queue.execute_queue_with_limit qB 0 5 5).1.last_time_executed_with_limit ≠
      some 5 :=
  ⟨rfl, by decide, rfl, rfl, by decide, by decide⟩

/-- Claim C5 (amended): `drain_with_limit(limit, min_interval)` does nothing
and returns 0 — leaving the recorded timestamp unchanged — when a previous
rate-limited call is recorded and **no more than** `min_interval` has
elapsed since it (the source compares elapsed `<=` interval, so the boundary
instant is also throttled); otherwise it records the current time and
drains outcomes until `drain_one` fails or `limit + 1` have been drained,
returning the number actually drained — `min (limit + 1)` (outcomes
available), which is at most `limit + 1` and can be 1 even with
`limit = 0`. -/
theorem execute_queue_with_limit_spec (q : Queue) (limit delay now : Nat) :
    (∀ last, q.last_time_executed_with_limit = some last → now - last ≤ delay →
      Queue.execute_queue_with_limit q limit delay now = (q, [], 0)) ∧
    (q.last_time_executed_with_limit = none ∨
        (∃ last, q.last_time_executed_with_limit = some last ∧ delay < now - last) →
      Queue.execute_queue_with_limit q limit delay now =
        ({ q with
            last_time_executed_with_limit := some now
            response_receiver :=
              q.response_receiver.drop (min (limit + 1) q.response_receiver.length)
            number_of_pending_requests :=
              q.number_of_pending_requests -
                min (limit + 1) q.response_receiver.length },
          (q.response_receiver.take
              (min (limit + 1) q.response_receiver.length)).map invocationOf,
          min (limit + 1) q.response_receiver.length) ∧
      min (limit + 1) q.response_receiver.length ≤ limit + 1) := by
  constructor
  · intro last hl hle
    simp [Queue.execute_queue_with_limit, hl, hle]
  · intro hcase
    refine ⟨?_, Nat.min_le_left _ _⟩
    rcases hcase with hnone | ⟨last, hl, hgt⟩
    · rw [show Queue.execute_queue_with_limit q limit delay now =
          Queue.drainLoop { q with last_time_executed_with_limit := some now }
            (limit + 1) by simp [Queue.execute_queue_with_limit, hnone]]
      rw [drainLoop_eq]
    · rw [show Queue.execute_queue_with_limit q limit delay now =
          Queue.drainLoop { q with last_time_executed_with_limit := some now }
            (limit + 1) by
        simp [Queue.execute_queue_with_limit, hl, Nat.not_le.mpr hgt]]
      rw [drainLoop_eq]

/-- Witness for claim C5 (amended) at the concrete queue `qB`: 10
nanoseconds elapsed, interval 3, so the call drains the single available
outcome, records the new timestamp, and returns 1. -/
theorem execute_queue_with_limit_spec_witness :
    (qB.last_time_executed_with_limit = some 0 ∧ (3 : Nat) < 10 - 0) ∧
    Queue.execute_queue_with_limit qB 0 3 10 =
      ({ working_thread := some ()
         input_commands := []
         response_receiver := []
         last_time_executed_with_limit := some 10
         number_of_pending_requests := 0 },
        [CallbackInvocation.invoke 5 (Except.error ErrorKind.RequestCancelled)], 1) ∧
    min (0 + 1) qB.response_receiver.length ≤ 0 + 1 := by
  have h := (execute_queue_with_limit_spec qB 0 3 10).2 (Or.inr ⟨0, rfl, by decide⟩)
  exact ⟨⟨rfl, by decide⟩, h.1, h.2⟩

/-- Claim C10: the very first rate-limited drain on a queue with no recorded
timestamp — as a fresh queue from `Queue::new` is — is never throttled:
whatever `min_interval` is, it runs the drain loop and records the current
time, so only calls after at least one batch can be suppressed. -/
theorem first_drain_never_throttled (q : Queue) (limit delay now : Nat)
    (h : q.last_time_executed_with_limit = none) :
    Queue.execute_queue_with_limit q limit delay now =
      Queue.drainLoop { q with last_time_executed_with_limit := some now }
        (limit + 1) ∧
    (Queue.execute_queue_with_limit q limit delay now).1.last_time_executed_with_limit =
      some now ∧
    (Queue.execute_queue_with_limit q limit delay now).2.2 =
      min (limit + 1) q.response_receiver.length ∧
    Queue.new.last_time_executed_with_limit = none := by
  have h1 : Queue.execute_queue_with_limit q limit delay now =
      Queue.drainLoop { q with last_time_executed_with_limit := some now }
        (limit + 1) := by
    simp [Queue.execute_queue_with_limit, h]
  refine ⟨h1, ?_, ?_, rfl⟩
  · rw [h1, drainLoop_eq]
  · rw [h1, drainLoop_eq]

/-- Witness for claim C10: a fresh queue, a huge interval (1000) and an
early instant (5) still perform the drain loop (empty channel, so 0
outcomes) and record the timestamp. -/
theorem first_drain_never_throttled_witness :
    Queue.new.last_time_executed_with_limit = none ∧
    (Queue.execute_queue_with_limit Queue.new 2 1000 5).1.last_time_executed_with_limit =
      some 5 ∧
    (Queue.execute_queue_with_limit Queue.new 2 1000 5).2.2 = 0 := by
  have h := first_drain_never_throttled Queue.new 2 1000 5 rfl
  exact ⟨rfl, h.2.1, by rw [h.2.2.1]; rfl⟩

end Grip
